import Mathlib

/-!
Verification of the Aether tool-execution engine's host bridge.

This file is a shallow embedding of `src/python/src/aether/binary.py` and
`src/python/src/aether/runtime.py`. Machine integers travel as `Nat`/`Int`
with range checks made explicit where the Python `struct` module enforces
them. Fallible Python code (raised exceptions) is embedded as `Except`.
The Zig dispatch core (`zig/src/ffi/exports.zig`) is not part of the source
tree; the definitions that stand in for it are modelled from the spec and
say so in their doc comments.
-/

set_option autoImplicit false

/-- The universe of Python values the bridge manipulates: `None`, ints,
strings, lists (also standing in for tuples), string-keyed dicts, and
exception objects (as stored in the output table by
`AgentRuntime._handle_python_call`). -/
inductive PyObj where
  | pyNone : PyObj
  | int (n : Int) : PyObj
  | str (s : String) : PyObj
  | list (items : List PyObj) : PyObj
  | dict (entries : List (String × PyObj)) : PyObj
  | exc (msg : String) : PyObj

instance : Inhabited PyObj := ⟨PyObj.pyNone⟩

/-- A registered Python tool implementation: `func(*args, **kwargs)`,
which either returns a value or raises an exception object. -/
abbrev PyImpl : Type := List PyObj → List (String × PyObj) → Except PyObj PyObj

/-- First-match association-list lookup; models Python `dict` lookup
(entries are prepended on insert, so the most recent binding wins, which
matches `dict` overwrite-on-assignment semantics observationally). -/
def alookup {κ α : Type} [DecidableEq κ] : List (κ × α) → κ → Option α
  | [], _ => none
  | (k2, v) :: rest, k => if k2 = k then some v else alookup rest k

/-- `PYTHON_TOOL_BASE` from runtime.py: host-registered tool ids start here;
ids below it are native built-ins. -/
def PYTHON_TOOL_BASE : Nat := 1000

/-- The error kinds `execute` and its helpers can raise.
`toolFailed name tool_id error_code` embeds
`RuntimeError(f"Tool (name) (tool_id) failed with code (error_code)")`
from runtime.py lines 122-124: the formatted message carries exactly these
three fields. `structError` is the `struct.error` raised by
`struct.Struct.pack_into` on an out-of-range field. `decodeFault` exists
only for fault-injected decoders (spec section 8, buffer-lifecycle test). -/
inductive ExecError where
  | valueError : ExecError
  | unknownTool (name : String) : ExecError
  | typeError : ExecError
  | structError : ExecError
  | toolFailed (name : String) (tool_id : Nat) (error_code : Int) : ExecError
  | decodeFault : ExecError
deriving DecidableEq

/-- Wire record for one call, mirroring the ctypes struct `PythonCall` in
binary.py (`tool_id` u16, reserved u16 elided, `payload` u64). -/
structure PythonCall where
  tool_id : Nat
  payload : Nat
deriving DecidableEq

/-- The ctypes struct `PythonResult` the trampoline fills in
(`status` u16, reserved elided, `output` u64, `error_code` i32). -/
structure PythonResult where
  status : Nat
  output : Nat
  error_code : Int
deriving DecidableEq

/-- Wire record for one result, mirroring the ctypes struct `FfiToolResult`
in binary.py (reserved i32 elided). -/
structure FfiToolResult where
  tool_id : Nat
  status : Nat
  output : Nat
  elapsed_ns : Nat
  error_code : Int
deriving DecidableEq

/-- Decoded result record, mirroring the dataclass `ToolExecution`
in binary.py. -/
structure ToolExecution where
  tool_id : Nat
  status : Nat
  output : Nat
  elapsed_ns : Nat
  error_code : Int
deriving DecidableEq

/-- The native result buffer descriptor (`ResultBuffer` in binary.py:
ptr + len + count). The pointed-to records are modelled as the list
`records`; `count` is its length and `isNull` models a null `ptr`. -/
structure ResultBuffer where
  isNull : Bool
  records : List FfiToolResult
deriving DecidableEq

/-- The final per-call result returned by `AgentRuntime.execute`
(dataclass `ExecutionResult` in runtime.py). `output` is a Python object:
an int for native tools, a resolved slot value or `None` for host tools. -/
structure ExecutionResult where
  name : String
  tool_id : Nat
  status : Nat
  output : PyObj
  elapsed_ns : Nat
  error_code : Int

/-- One entry of the payload slot table: the `(args, kwargs)` tuple stored
by `AgentRuntime._prepare_calls`. -/
abbrev PayloadSlot : Type := List PyObj × List (String × PyObj)

/-- Host-bridge state of one `AgentRuntime` instance: exactly the
bookkeeping fields assigned in `AgentRuntime.__init__` (runtime.py lines
36-46). The ctypes library handle, callback pointer and context token are
FFI plumbing with no host-visible state and are not part of the model;
`_active_lock` serializes trampoline bookkeeping but does not change the
sequential semantics embedded here. -/
structure AgentRuntime where
  tool_ids : List (String × Nat)
  tool_names : List (Nat × String)
  python_tools : List (Nat × PyImpl)
  next_tool_id : Nat
  active_payloads : Option (List PayloadSlot)
  active_results : Option (List PyObj)

/-- The state `AgentRuntime.__init__` leaves behind: native built-ins
`sleep_ms` = 0 and `cpu_spin` = 1 pre-registered, host ids starting at
`PYTHON_TOOL_BASE`, no active batch tables. -/
def initAgentRuntime : AgentRuntime :=
  { tool_ids := [("sleep_ms", 0), ("cpu_spin", 1)]
    tool_names := [(0, "sleep_ms"), (1, "cpu_spin")]
    python_tools := []
    next_tool_id := PYTHON_TOOL_BASE
    active_payloads := none
    active_results := none }

/-- `AgentRuntime.tool` (runtime.py lines 59-72), flattened from decorator
form: registers `f` under `name`, assigning the next monotonic tool id.
Returns the updated runtime and the id that was assigned. -/
def tool (rt : AgentRuntime) (name : String) (f : PyImpl) : AgentRuntime × Nat :=
  let tool_id := rt.next_tool_id
  ({ rt with
      next_tool_id := tool_id + 1
      tool_ids := (name, tool_id) :: rt.tool_ids
      tool_names := (tool_id, name) :: rt.tool_names
      python_tools := (tool_id, f) :: rt.python_tools },
   tool_id)

/-- Fold of `tool` over a list of registrations, also collecting the
assigned ids in order. -/
def registerAll (rt : AgentRuntime) : List (String × PyImpl) → AgentRuntime × List Nat
  | [] => (rt, [])
  | (name, f) :: rest =>
    let (rt1, id1) := tool rt name f
    let (rt2, ids) := registerAll rt1 rest
    (rt2, id1 :: ids)

/-- One call descriptor as passed to `execute`: a mapping that may carry a
numeric `tool_id`, a `name`, and a `payload`. `name := none` also covers a
non-string name value (both hit the same `ValueError` branch in
`_resolve_tool_id`). -/
structure CallDesc where
  tool_id : Option Int
  name : Option String
  payload : Option PyObj

/-- `AgentRuntime._resolve_tool_id` (runtime.py lines 148-156): an explicit
numeric `tool_id` wins; otherwise the name is looked up among registered
tools (`KeyError` → `unknownTool`); a missing or non-string name raises
`ValueError`. -/
def resolve_tool_id (rt : AgentRuntime) (call : CallDesc) : Except ExecError Int :=
  match call.tool_id with
  | some t => .ok t
  | none =>
    match call.name with
    | none => .error .valueError
    | some n =>
      match alookup rt.tool_ids n with
      | none => .error (.unknownTool n)
      | some t => .ok (Int.ofNat t)

/-- Python truthiness of the values in `PyObj`, as used by
`payload or 0` in `_prepare_calls`. -/
def pyTruthy : PyObj → Bool
  | .pyNone => false
  | .int n => n ≠ 0
  | .str s => s ≠ ""
  | .list items => !items.isEmpty
  | .dict entries => !entries.isEmpty
  | .exc _ => true

/-- `payload or 0`: a falsy payload is replaced by the int 0. -/
def pyOr0 (p : PyObj) : PyObj := if pyTruthy p then p else .int 0

/-- `int(x)` restricted to the shapes native payloads take. Python would
also parse numeric strings and truncate floats; neither shape reaches a
native payload in this codebase, so non-int objects raise `TypeError`. -/
def pyToInt : PyObj → Except ExecError Int
  | .int n => .ok n
  | _ => .error .typeError

/-- `list(x)` as applied to the `args` value of a payload mapping: a list
yields its items, anything non-iterable raises `TypeError` (Python would
also iterate strings and dicts; no caller passes those as `args`). -/
def asList : PyObj → Except ExecError (List PyObj)
  | .list items => .ok items
  | _ => .error .typeError

/-- `dict(x)` as applied to the `kwargs` value of a payload mapping. -/
def asDict : PyObj → Except ExecError (List (String × PyObj))
  | .dict entries => .ok entries
  | _ => .error .typeError

/-- `_normalize_python_payload` (runtime.py lines 230-239): `None` → no
arguments; a dict containing an `args` or `kwargs` key → that explicit
split (missing key defaults to empty); a list/tuple → positional
arguments; anything else (including a dict with neither key) → a single
positional argument. -/
def normalize_python_payload (payload : PyObj) :
    Except ExecError (List PyObj × List (String × PyObj)) :=
  match payload with
  | .pyNone => .ok ([], [])
  | .dict entries =>
    if (alookup entries "args").isSome || (alookup entries "kwargs").isSome then
      match asList ((alookup entries "args").getD (.list [])) with
      | .error e => .error e
      | .ok args =>
        match asDict ((alookup entries "kwargs").getD (.dict [])) with
        | .error e => .error e
        | .ok kwargs => .ok (args, kwargs)
    else .ok ([.dict entries], [])
  | .list items => .ok (items, [])
  | other => .ok ([other], [])

/-- Recursive worker for `_prepare_calls`, threading the payload slot
table being built (`payloads` starts empty; each host-routed call appends
one slot and embeds its index as the wire payload). -/
def prepareGo (rt : AgentRuntime) :
    List CallDesc → List PayloadSlot →
    Except ExecError (List (Int × Int) × List PayloadSlot)
  | [], payloads => .ok ([], payloads)
  | call :: rest, payloads =>
    match resolve_tool_id rt call with
    | .error e => .error e
    | .ok t =>
      let p := (call.payload).getD .pyNone
      if (PYTHON_TOOL_BASE : Int) ≤ t then
        match normalize_python_payload p with
        | .error e => .error e
        | .ok slot =>
          let index := payloads.length
          match prepareGo rt rest (payloads ++ [slot]) with
          | .error e => .error e
          | .ok (prepared, table) => .ok ((t, Int.ofNat index) :: prepared, table)
      else
        match pyToInt (pyOr0 p) with
        | .error e => .error e
        | .ok n =>
          match prepareGo rt rest payloads with
          | .error e => .error e
          | .ok (prepared, table) => .ok ((t, n) :: prepared, table)

/-- `AgentRuntime._prepare_calls` (runtime.py lines 128-146): resolves each
call to a `(tool_id, payload)` pair and builds the batch's payload slot
table. -/
def prepare_calls (rt : AgentRuntime) (calls : List CallDesc) :
    Except ExecError (List (Int × Int) × List PayloadSlot) :=
  prepareGo rt calls []

/-- Little-endian bytes of a `<H` (u16) field. -/
def pack16 (n : Nat) : List Nat := [n % 256, n / 256 % 256]

/-- Little-endian bytes of a `<I` (u32) field. -/
def pack32 (n : Nat) : List Nat :=
  [n % 256, n / 256 % 256, n / 65536 % 256, n / 16777216 % 256]

/-- Little-endian bytes of a `<Q` (u64) field. -/
def pack64 (n : Nat) : List Nat :=
  [n % 256, n / 256 % 256, n / 65536 % 256, n / 16777216 % 256,
   n / 4294967296 % 256, n / 1099511627776 % 256,
   n / 281474976710656 % 256, n / 72057594037927936 % 256]

/-- The 16 bytes of one `<HHxxxxQ` call record: `tool_id`, reserved 0,
four zero pad bytes, `payload`. -/
def callRecordBytes (t p : Nat) : List Nat :=
  pack16 t ++ pack16 0 ++ [0, 0, 0, 0] ++ pack64 p

/-- Packing of one call record inside `encode_calls`: `pack_into` raises
`struct.error` when `tool_id` does not fit `<H` or `payload` does not fit
`<Q`. -/
def encodeRecord (c : Int × Int) : Except ExecError (List Nat) :=
  if 0 ≤ c.1 ∧ c.1 < 65536 then
    if 0 ≤ c.2 ∧ c.2 < 18446744073709551616 then
      .ok (callRecordBytes c.1.toNat c.2.toNat)
    else .error .structError
  else .error .structError

/-- Sequential packing of all call records (first out-of-range record
raises, as the Python loop does). -/
def encodeRecords : List (Int × Int) → Except ExecError (List Nat)
  | [] => .ok []
  | c :: rest =>
    match encodeRecord c with
    | .error e => .error e
    | .ok bytes =>
      match encodeRecords rest with
      | .error e => .error e
      | .ok more => .ok (bytes ++ more)

/-- `binary.encode_calls` (binary.py lines 78-100) restricted to calls whose
`tool_id`/`payload` already passed `int()`: one contiguous buffer holding
the `<II` header (count, reserved 0) followed by the fixed call records in
input order. The count must itself fit the header's `<I` field (for larger
batches Python's behavior is dominated by the multi-gigabyte
`create_string_buffer` allocation, outside this embedding). The Python
code writes into one preallocated buffer at offsets; concatenation of the
same bytes models it. -/
def encode_calls (calls : List (Int × Int)) : Except ExecError (List Nat) :=
  if calls.length < 4294967296 then
    match encodeRecords calls with
    | .error e => .error e
    | .ok recs => .ok (pack32 calls.length ++ pack32 0 ++ recs)
  else .error .structError

/-- `binary.decode_results` (binary.py lines 103-124): a null pointer or a
zero count yields the empty list, otherwise each `FfiToolResult` record is
copied into a `ToolExecution`. -/
def decode_results (buffer : ResultBuffer) : List ToolExecution :=
  if buffer.isNull || buffer.records.isEmpty then []
  else
    buffer.records.map fun e =>
      { tool_id := e.tool_id
        status := e.status
        output := e.output
        elapsed_ns := e.elapsed_ns
        error_code := e.error_code }

/-- `AgentRuntime._handle_python_call` (runtime.py lines 158-206): look up
the implementation (`-404` if unregistered, without invoking anything),
fetch the argument slot under the lock (`-400` if the table is absent or
the index out of range; the index is a u64 and cannot be negative), invoke
it, and append the output value or the caught exception to the output
table, writing the new slot's index into `output` and distinguishing the
two cases only by `status` (error code `-500` for a raised exception). -/
def handle_python_call (rt : AgentRuntime) (call : PythonCall) :
    AgentRuntime × PythonResult × Int :=
  match alookup rt.python_tools call.tool_id with
  | none => (rt, { status := 1, output := 0, error_code := -404 }, -1)
  | some func =>
    match rt.active_payloads with
    | none => (rt, { status := 1, output := 0, error_code := -400 }, -1)
    | some payloads =>
      if h : call.payload < payloads.length then
        let slot := payloads.get ⟨call.payload, h⟩
        match func slot.1 slot.2 with
        | .ok output =>
          let store := rt.active_results.getD [] ++ [output]
          ({ rt with active_results := some store },
           { status := 0, output := store.length - 1, error_code := 0 }, 0)
        | .error e =>
          let store := rt.active_results.getD [] ++ [e]
          ({ rt with active_results := some store },
           { status := 1, output := store.length - 1, error_code := -500 }, -1)
      else (rt, { status := 1, output := 0, error_code := -400 }, -1)

/-- The process-wide `_RUNTIME_REGISTRY` mapping context tokens to live
runtime instances. -/
abbrev Registry : Type := List (Nat × AgentRuntime)

/-- `_python_callback_trampoline` (runtime.py lines 242-254): resolve the
opaque context token to a live runtime (`-410` if stale) and delegate to
`_handle_python_call`, writing the updated runtime back. -/
def python_callback_trampoline (registry : Registry) (token : Nat)
    (call : PythonCall) : Registry × PythonResult × Int :=
  match alookup registry token with
  | none => (registry, { status := 1, output := 0, error_code := -410 }, -1)
  | some rt =>
    let (rt2, res, ret) := handle_python_call rt call
    ((token, rt2) :: registry.filter (fun entry => entry.1 ≠ token), res, ret)

/-- The table-installation step of `execute` (runtime.py lines 80-82):
under the lock, the batch's payload table is stored into the runtime's
`_active_payloads` field and `_active_results` is reset to an empty list.
These are per-runtime fields, not per-invocation values. -/
def setActiveTables (rt : AgentRuntime) (payloads : List PayloadSlot) : AgentRuntime :=
  { rt with active_payloads := some payloads, active_results := some [] }

/-- The table-teardown step of `execute` (runtime.py lines 90-93): both
active tables are cleared to `None`. -/
def clearActiveTables (rt : AgentRuntime) : AgentRuntime :=
  { rt with active_payloads := none, active_results := none }

/-- Modelled from the spec: per-call dispatch of the Zig core
(`zig/src/ffi/exports.zig`, absent from src/). Spec section 4.2: a
`tool_id` below the host base runs the built-in table (`0` = sleep_ms,
`1` = cpu_spin, spec section 6; their numeric outputs are not specified
and are modelled as 0); an unknown native id yields status 1, error code
-404, output 0 without invoking anything; a `tool_id` at or above the base
is routed synchronously through the host callback, whose filled
`PythonResult` is copied into the wire record. One result per call, in
submission order (spec section 5); `elapsed_ns` is wall-clock time,
modelled as 0. The callback is this bridge's trampoline invoked with this
runtime's live token, which resolves to the runtime itself
(theorem `trampoline_live_token` below justifies the direct call). -/
def nativeStep (rt : AgentRuntime) (t p : Nat) : AgentRuntime × FfiToolResult :=
  if t < PYTHON_TOOL_BASE then
    if t = 0 ∨ t = 1 then
      (rt, { tool_id := t, status := 0, output := 0, elapsed_ns := 0,
             error_code := 0 })
    else
      (rt, { tool_id := t, status := 1, output := 0, elapsed_ns := 0,
             error_code := -404 })
  else
    let (rt2, res, _) := handle_python_call rt { tool_id := t, payload := p }
    (rt2, { tool_id := t, status := res.status, output := res.output,
            elapsed_ns := 0, error_code := res.error_code })

/-- Modelled from the spec: sequential fold of `nativeStep` over the
decoded batch. The real core runs the calls across a worker pool but
writes results back in submission order (spec section 5); threading the
runtime state sequentially realizes the same observable order, with the
lock-serialized table updates of the trampoline. -/
def nativeExecuteCalls (rt : AgentRuntime) :
    List (Nat × Nat) → AgentRuntime × List FfiToolResult
  | [] => (rt, [])
  | (t, p) :: rest =>
    ((nativeExecuteCalls (nativeStep rt t p).1 rest).1,
     (nativeStep rt t p).2 :: (nativeExecuteCalls (nativeStep rt t p).1 rest).2)

/-- Parses the `count` fixed call records following the batch header, as
the native core reads them from the submitted buffer. -/
def parseCallRecords : Nat → List Nat → Option (List (Nat × Nat))
  | 0, [] => some []
  | 0, _ :: _ => none
  | n + 1, b0 :: b1 :: _b2 :: _b3 :: _x0 :: _x1 :: _x2 :: _x3 ::
           q0 :: q1 :: q2 :: q3 :: q4 :: q5 :: q6 :: q7 :: rest =>
    match parseCallRecords n rest with
    | none => none
    | some more =>
      some ((b0 + 256 * b1,
             q0 + 256 * q1 + 65536 * q2 + 16777216 * q3 +
               4294967296 * q4 + 1099511627776 * q5 +
               281474976710656 * q6 + 72057594037927936 * q7) :: more)
  | _ + 1, _ => none

/-- Modelled from the spec: the native core's view of a submitted batch
buffer — the `<II` header's count followed by exactly that many fixed call
records (spec section 3: the header count must equal the records
physically present). -/
def decodeCallBatch (bytes : List Nat) : Option (List (Nat × Nat)) :=
  match bytes with
  | b0 :: b1 :: b2 :: b3 :: _r0 :: _r1 :: _r2 :: _r3 :: rest =>
    parseCallRecords (b0 + 256 * b1 + 65536 * b2 + 16777216 * b3) rest
  | _ => none

/-- Modelled from the spec: `aether_execute`, the native entry point
(spec section 6): decode the batch, run every call, and hand back an
exclusively-owned result buffer descriptor. A malformed batch is modelled
as a null buffer (no claim exercises it; the bridge always submits a
well-formed buffer). -/
def aether_execute (rt : AgentRuntime) (bytes : List Nat) :
    AgentRuntime × ResultBuffer :=
  match decodeCallBatch bytes with
  | none => (rt, { isNull := true, records := [] })
  | some calls =>
    let (rt2, records) := nativeExecuteCalls rt calls
    (rt2, { isNull := false, records := records })

/-- FFI effects of one `execute` call, for the buffer-lifecycle contract:
the native submit (`aether_execute`) and the buffer release
(`aether_free_buffer`). -/
inductive FfiEvent where
  | submitEv : FfiEvent
  | freeEv : FfiEvent
deriving DecidableEq

/-- The front half of `execute` (runtime.py lines 77-84): prepare the
calls, encode the batch, install the batch tables, and submit to the
native core, yielding the post-submission runtime and the result buffer. -/
def executeSubmit (rt : AgentRuntime) (calls : List CallDesc) :
    Except ExecError (AgentRuntime × ResultBuffer) :=
  match prepare_calls rt calls with
  | .error e => .error e
  | .ok (prepared, payloads) =>
    match encode_calls prepared with
    | .error e => .error e
    | .ok bytes => .ok (aether_execute (setActiveTables rt payloads) bytes)

/-- Per-entry result resolution of `execute` (runtime.py lines 96-117):
the name from `_tool_names` (default `tool:<id>`); on success a host
tool's output slot is read from the store when in range and is otherwise
silently `None`, a native tool's output is the literal integer; on failure
a host tool's in-range slot (the stored exception) is read and anything
else is `None`. `List.getD store i default` is exactly
`store[i] if i < len(store) else default`. -/
def entryToResult (rt : AgentRuntime) (store : List PyObj) (e : ToolExecution) :
    ExecutionResult :=
  let name := (alookup rt.tool_names e.tool_id).getD ("tool:" ++ toString e.tool_id)
  let output : PyObj :=
    if e.status = 0 then
      if PYTHON_TOOL_BASE ≤ e.tool_id then store.getD e.output .pyNone
      else .int e.output
    else
      if PYTHON_TOOL_BASE ≤ e.tool_id then store.getD e.output .pyNone
      else .pyNone
  { name := name, tool_id := e.tool_id, status := e.status, output := output,
    elapsed_ns := e.elapsed_ns, error_code := e.error_code }

/-- The result-assembly loop of `execute` (runtime.py lines 95-118). -/
def buildFinalResults (rt : AgentRuntime) (store : List PyObj)
    (raw : List ToolExecution) : List ExecutionResult :=
  raw.map (entryToResult rt store)

/-- The tail of `execute` (runtime.py lines 95-126): assemble the final
results and apply the error-surfacing policy — if any result has nonzero
status, raise a single `RuntimeError` naming the first failing call's
name, tool id and error code; otherwise return the full ordered list. -/
def finishExecute (rt : AgentRuntime) (store : List PyObj)
    (raw : List ToolExecution) : Except ExecError (List ExecutionResult) :=
  let finals := buildFinalResults rt store raw
  match finals.filter (fun r => r.status != 0) with
  | [] => .ok finals
  | first :: _ => .error (.toolFailed first.name first.tool_id first.error_code)

/-- `AgentRuntime.execute` (runtime.py lines 74-126) with the result
decoder abstracted so the buffer-lifecycle contract can be checked under a
fault-injected decoder (spec section 8). Returns the outcome, the
post-call runtime state, and the trace of FFI buffer events. The
`try/finally` around decoding frees the buffer on both the normal and the
raising path; the store is read (`self._active_results or []`) and both
tables cleared only after a successful decode, exactly as in the source. -/
def executeWith (decoder : ResultBuffer → Except ExecError (List ToolExecution))
    (rt : AgentRuntime) (calls : List CallDesc) :
    Except ExecError (List ExecutionResult) × AgentRuntime × List FfiEvent :=
  match executeSubmit rt calls with
  | .error e => (.error e, rt, [])
  | .ok (rt1, buffer) =>
    match decoder buffer with
    | .error e => (.error e, rt1, [.submitEv, .freeEv])
    | .ok raw =>
      let store := rt1.active_results.getD []
      let rt2 := clearActiveTables rt1
      (finishExecute rt2 store raw, rt2, [.submitEv, .freeEv])

/-- `AgentRuntime.execute` with the real decoder `decode_results`. -/
def execute (rt : AgentRuntime) (calls : List CallDesc) :
    Except ExecError (List ExecutionResult) × AgentRuntime × List FfiEvent :=
  executeWith (fun b => .ok (decode_results b)) rt calls

/-- The decoded raw results `execute` obtains for a batch (`none` when the
pipeline raises before decoding). -/
def executeRaw (rt : AgentRuntime) (calls : List CallDesc) :
    Option (List ToolExecution) :=
  match executeSubmit rt calls with
  | .error _ => none
  | .ok (_, buffer) => some (decode_results buffer)

/-- A live context token resolves to its runtime: the trampoline then just
runs `_handle_python_call` on that runtime (justifies the direct dispatch
inside `nativeExecuteCalls`). -/
theorem trampoline_live_token (registry : Registry) (token : Nat)
    (rt : AgentRuntime) (call : PythonCall)
    (h : alookup registry token = some rt) :
    (python_callback_trampoline registry token call).2 =
      (handle_python_call rt call).2 := by
  unfold python_callback_trampoline
  rw [h]

/-- Claim C4: trampoline error handling. An unregistered tool id yields
status 1, error code -404, output 0 with the runtime untouched (no
implementation invoked); a context token with no live runtime yields the
distinct sentinel -410; a slot index outside the active payload table
yields the distinct sentinel -400; an implementation that raises has the
exception appended to the output table with the new slot's index written
to `output` and status 1 (code -500), while a successful call appends the
output value and writes its slot index with status 0. -/
theorem C4_trampoline_sentinels :
    (∀ (registry : Registry) (token : Nat) (call : PythonCall),
        alookup registry token = none →
        python_callback_trampoline registry token call =
          (registry, { status := 1, output := 0, error_code := -410 }, -1)) ∧
    (∀ (rt : AgentRuntime) (call : PythonCall),
        alookup rt.python_tools call.tool_id = none →
        handle_python_call rt call =
          (rt, { status := 1, output := 0, error_code := -404 }, -1)) ∧
    (∀ (rt : AgentRuntime) (call : PythonCall) (f : PyImpl)
        (payloads : List PayloadSlot),
        alookup rt.python_tools call.tool_id = some f →
        rt.active_payloads = some payloads →
        payloads.length ≤ call.payload →
        handle_python_call rt call =
          (rt, { status := 1, output := 0, error_code := -400 }, -1)) ∧
    (∀ (rt : AgentRuntime) (call : PythonCall) (f : PyImpl)
        (payloads : List PayloadSlot) (v : PyObj),
        alookup rt.python_tools call.tool_id = some f →
        rt.active_payloads = some payloads →
        ∀ (hlt : call.payload < payloads.length),
        f (payloads.get ⟨call.payload, hlt⟩).1 (payloads.get ⟨call.payload, hlt⟩).2 = .ok v →
        handle_python_call rt call =
          ({ rt with active_results := some (rt.active_results.getD [] ++ [v]) },
           { status := 0, output := (rt.active_results.getD []).length,
             error_code := 0 }, 0)) ∧
    (∀ (rt : AgentRuntime) (call : PythonCall) (f : PyImpl)
        (payloads : List PayloadSlot) (e : PyObj),
        alookup rt.python_tools call.tool_id = some f →
        rt.active_payloads = some payloads →
        ∀ (hlt : call.payload < payloads.length),
        f (payloads.get ⟨call.payload, hlt⟩).1 (payloads.get ⟨call.payload, hlt⟩).2 = .error e →
        handle_python_call rt call =
          ({ rt with active_results := some (rt.active_results.getD [] ++ [e]) },
           { status := 1, output := (rt.active_results.getD []).length,
             error_code := -500 }, -1)) := by
  refine ⟨?_, ?_, ?_, ?_, ?_⟩
  · intro registry token call h
    unfold python_callback_trampoline
    rw [h]
  · intro rt call h
    unfold handle_python_call
    rw [h]
  · intro rt call f payloads hf hp hge
    unfold handle_python_call
    rw [hf, hp]
    dsimp only
    rw [dif_neg (by omega)]
  · intro rt call f payloads v hf hp hlt hok
    unfold handle_python_call
    rw [hf, hp]
    dsimp only
    rw [dif_pos hlt, hok]
    simp
  · intro rt call f payloads e hf hp hlt herr
    unfold handle_python_call
    rw [hf, hp]
    dsimp only
    rw [dif_pos hlt, herr]
    simp

/-- A tool implementation that echoes its first positional argument. -/
def echoImpl : PyImpl := fun args _ => .ok (args.getD 0 .pyNone)

/-- A tool implementation that always raises. -/
def boomImpl : PyImpl := fun _ _ => .error (.exc "boom")

/-- A runtime with `echo` registered as tool 1000 and an active payload
table holding one slot. -/
def rtEchoActive : AgentRuntime :=
  setActiveTables (tool initAgentRuntime "echo" echoImpl).1
    [([PyObj.int 7], [])]

/-- Witness for C4: each trampoline behavior at a concrete input — a stale
token, an unregistered id 1001, an out-of-range slot index 5, a successful
echo call, and a raising call. -/
theorem C4_trampoline_sentinels_witness :
    python_callback_trampoline [] 42 { tool_id := 1000, payload := 0 } =
      ([], { status := 1, output := 0, error_code := -410 }, -1) ∧
    handle_python_call rtEchoActive { tool_id := 1001, payload := 0 } =
      (rtEchoActive, { status := 1, output := 0, error_code := -404 }, -1) ∧
    handle_python_call rtEchoActive { tool_id := 1000, payload := 5 } =
      (rtEchoActive, { status := 1, output := 0, error_code := -400 }, -1) ∧
    handle_python_call rtEchoActive { tool_id := 1000, payload := 0 } =
      ({ rtEchoActive with active_results := some [PyObj.int 7] },
       { status := 0, output := 0, error_code := 0 }, 0) ∧
    handle_python_call
        { rtEchoActive with python_tools := [(1000, boomImpl)] }
        { tool_id := 1000, payload := 0 } =
      ({ rtEchoActive with python_tools := [(1000, boomImpl)],
                           active_results := some [PyObj.exc "boom"] },
       { status := 1, output := 0, error_code := -500 }, -1) := by
  refine ⟨?_, ?_, ?_, ?_, ?_⟩
  · exact C4_trampoline_sentinels.1 [] 42 { tool_id := 1000, payload := 0 } rfl
  · exact C4_trampoline_sentinels.2.1 rtEchoActive _ rfl
  · exact C4_trampoline_sentinels.2.2.1 rtEchoActive _ echoImpl
      [([PyObj.int 7], [])] rfl rfl (by decide)
  · exact C4_trampoline_sentinels.2.2.2.1 rtEchoActive _ echoImpl
      [([PyObj.int 7], [])] (PyObj.int 7) rfl rfl (by decide) rfl
  · exact C4_trampoline_sentinels.2.2.2.2
      { rtEchoActive with python_tools := [(1000, boomImpl)] } _ boomImpl
      [([PyObj.int 7], [])] (PyObj.exc "boom") rfl rfl (by decide) rfl

/-- Claim C5 counterexample: `execute`'s table-installation step writes
into the shared per-runtime fields, not a batch-scoped instance. A second
installation (overlapping batch B, payload 2) replaces the first (batch A,
payload 1) entirely, and batch A's call, slot 0, dispatched afterwards
resolves batch B's argument: the echo tool stores 2, not 1. -/
theorem C5_counterexample :
    (setActiveTables
        (setActiveTables (tool initAgentRuntime "echo" echoImpl).1
          [([PyObj.int 1], [])])
        [([PyObj.int 2], [])]).active_payloads = some [([PyObj.int 2], [])] ∧
    (handle_python_call
        (setActiveTables
          (setActiveTables (tool initAgentRuntime "echo" echoImpl).1
            [([PyObj.int 1], [])])
          [([PyObj.int 2], [])])
        { tool_id := 1000, payload := 0 }).1.active_results =
      some [PyObj.int 2] ∧
    (handle_python_call
        (setActiveTables
          (setActiveTables (tool initAgentRuntime "echo" echoImpl).1
            [([PyObj.int 1], [])])
          [([PyObj.int 2], [])])
        { tool_id := 1000, payload := 0 }).2.1.status = 0 :=
  ⟨rfl, rfl, rfl⟩

/-- Claim C5 as amended: `execute` installs each batch's payload and output
tables into the per-runtime fields `_active_payloads`/`_active_results`
shared by every invocation on that runtime; installing a second batch's
tables replaces the first batch's tables completely, so slot resolution
after the second installation sees only the second batch's table. -/
theorem C5_amended_shared_tables (rt : AgentRuntime)
    (pA pB : List PayloadSlot) :
    setActiveTables (setActiveTables rt pA) pB = setActiveTables rt pB ∧
    (setActiveTables (setActiveTables rt pA) pB).active_payloads = some pB ∧
    (setActiveTables (setActiveTables rt pA) pB).active_results = some [] :=
  ⟨rfl, rfl, rfl⟩

/-- The ids a sequence of registrations assigns, starting from any runtime
state: consecutive values of the monotonic counter `_next_tool_id`. -/
theorem registerAll_ids (regs : List (String × PyImpl)) :
    ∀ rt : AgentRuntime,
      (registerAll rt regs).2 =
        (List.range regs.length).map (fun i => rt.next_tool_id + i) ∧
      (registerAll rt regs).1.next_tool_id = rt.next_tool_id + regs.length := by
  induction regs with
  | nil => intro rt; simp [registerAll]
  | cons hd tl ih =>
    intro rt
    obtain ⟨name, f⟩ := hd
    obtain ⟨h1, h2⟩ := ih (tool rt name f).1
    constructor
    · show (tool rt name f).2 :: (registerAll (tool rt name f).1 tl).2 = _
      rw [h1]
      simp only [List.length_cons]
      rw [List.range_succ_eq_map, List.map_cons, List.map_map]
      refine congrArg₂ _ (by simp [tool]) ?_
      refine List.map_congr_left fun i _ => ?_
      simp [tool, Function.comp]
      omega
    · show (registerAll (tool rt name f).1 tl).1.next_tool_id = _
      rw [h2]
      simp [tool]
      omega

/-- Claim C6: registration assigns consecutive ids from the monotonic
counter starting at the host-tool base 1000, so all assigned ids are
distinct, at least 1000, and disjoint from the native ids 0 and 1; and
re-registering an existing name creates a second independent entry — name
lookup resolves to the newest id while the old id still maps to its
original implementation, and the name now maps to the new id (last
registered wins). -/
theorem C6_registration_counter :
    (∀ regs : List (String × PyImpl),
        (registerAll initAgentRuntime regs).2 =
          (List.range regs.length).map (fun i => PYTHON_TOOL_BASE + i) ∧
        (registerAll initAgentRuntime regs).2.Nodup ∧
        ∀ i ∈ (registerAll initAgentRuntime regs).2,
          PYTHON_TOOL_BASE ≤ i ∧ i ≠ 0 ∧ i ≠ 1) ∧
    (∀ (rt : AgentRuntime) (name : String) (f g : PyImpl),
        (tool (tool rt name f).1 name g).2 = (tool rt name f).2 + 1 ∧
        alookup (tool (tool rt name f).1 name g).1.tool_ids name =
          some (tool (tool rt name f).1 name g).2 ∧
        alookup (tool (tool rt name f).1 name g).1.python_tools
            (tool rt name f).2 = some f ∧
        alookup (tool (tool rt name f).1 name g).1.python_tools
            (tool (tool rt name f).1 name g).2 = some g) := by
  constructor
  · intro regs
    obtain ⟨h1, _⟩ := registerAll_ids regs initAgentRuntime
    have hinit : initAgentRuntime.next_tool_id = PYTHON_TOOL_BASE := rfl
    rw [hinit] at h1
    refine ⟨h1, ?_, ?_⟩
    · rw [h1]
      exact List.Nodup.map (fun a b hab => by omega) (List.nodup_range _)
    · intro i hi
      rw [h1] at hi
      obtain ⟨j, _, rfl⟩ := List.mem_map.mp hi
      refine ⟨Nat.le_add_right _ _, ?_, ?_⟩ <;> simp only [PYTHON_TOOL_BASE] <;> omega
  · intro rt name f g
    refine ⟨rfl, ?_, ?_, ?_⟩
    · show alookup ((name, rt.next_tool_id + 1) :: (name, rt.next_tool_id) ::
        rt.tool_ids) name = _
      simp [alookup, tool]
    · show alookup ((rt.next_tool_id + 1, g) :: (rt.next_tool_id, f) ::
        rt.python_tools) rt.next_tool_id = some f
      rw [alookup, if_neg (by omega), alookup, if_pos rfl]
    · show alookup ((rt.next_tool_id + 1, g) :: (rt.next_tool_id, f) ::
        rt.python_tools) (rt.next_tool_id + 1) = some g
      rw [alookup, if_pos rfl]

/-- Claim C7: payload normalization for host-routed calls. `None` maps to
no arguments; a mapping containing an `args` or `kwargs` key maps to that
explicit positional/keyword split (a missing key defaulting to empty); a
sequence maps to positional arguments; any other scalar (an int or a
string) maps to a single positional argument. -/
theorem C7_normalize_payload :
    normalize_python_payload .pyNone = .ok ([], []) ∧
    (∀ (entries : List (String × PyObj)) (args : List PyObj)
        (kwargs : List (String × PyObj)),
        alookup entries "args" = some (.list args) →
        alookup entries "kwargs" = some (.dict kwargs) →
        normalize_python_payload (.dict entries) = .ok (args, kwargs)) ∧
    (∀ (entries : List (String × PyObj)) (args : List PyObj),
        alookup entries "args" = some (.list args) →
        alookup entries "kwargs" = none →
        normalize_python_payload (.dict entries) = .ok (args, [])) ∧
    (∀ (entries : List (String × PyObj)) (kwargs : List (String × PyObj)),
        alookup entries "args" = none →
        alookup entries "kwargs" = some (.dict kwargs) →
        normalize_python_payload (.dict entries) = .ok ([], kwargs)) ∧
    (∀ items : List PyObj,
        normalize_python_payload (.list items) = .ok (items, [])) ∧
    (∀ n : Int, normalize_python_payload (.int n) = .ok ([.int n], [])) ∧
    (∀ s : String, normalize_python_payload (.str s) = .ok ([.str s], [])) := by
  refine ⟨rfl, ?_, ?_, ?_, fun _ => rfl, fun _ => rfl, fun _ => rfl⟩
  · intro entries args kwargs ha hk
    unfold normalize_python_payload
    dsimp only
    rw [ha, hk]
    rfl
  · intro entries args ha hk
    unfold normalize_python_payload
    dsimp only
    rw [ha, hk]
    rfl
  · intro entries kwargs ha hk
    unfold normalize_python_payload
    dsimp only
    rw [ha, hk]
    rfl

/-- Witness for C7: the mapping branch evaluated at the concrete payload
of the spec's host-delegation example, `(args := [21])` with explicit
kwargs, and an args-only mapping. -/
theorem C7_normalize_payload_witness :
    normalize_python_payload
        (.dict [("args", .list [.int 21]), ("kwargs", .dict [])]) =
      .ok ([.int 21], []) ∧
    normalize_python_payload (.dict [("args", .list [.int 21])]) =
      .ok ([.int 21], []) :=
  ⟨C7_normalize_payload.2.1 _ [.int 21] [] rfl rfl,
   C7_normalize_payload.2.2.1 _ [.int 21] rfl rfl⟩

/-- The final result list is the entrywise resolution of the raw list. -/
theorem buildFinalResults_length (rt : AgentRuntime) (store : List PyObj)
    (raw : List ToolExecution) :
    (buildFinalResults rt store raw).length = raw.length :=
  List.length_map _ _

/-- Indexing the final result list resolves the raw entry at the same
index. -/
theorem buildFinalResults_get (rt : AgentRuntime) (store : List PyObj)
    (raw : List ToolExecution) (i : Nat)
    (hf : i < (buildFinalResults rt store raw).length)
    (hi : i < raw.length) :
    (buildFinalResults rt store raw).get ⟨i, hf⟩ =
      entryToResult rt store (raw.get ⟨i, hi⟩) := by
  simp [buildFinalResults, List.get_eq_getElem, List.getElem_map]

/-- Claim C10: in `execute`'s result resolution, a success-status record
for a host tool whose output slot index is at or beyond the output table's
length resolves silently to `None` rather than raising; a success-status
record whose in-range slot holds `None` (a tool that returned `None`)
resolves to the same `None`, so the two are indistinguishable. -/
theorem C10_dangling_slot_is_none (rt : AgentRuntime) (store : List PyObj)
    (raw : List ToolExecution) (i : Nat) (hi : i < raw.length)
    (hf : i < (buildFinalResults rt store raw).length)
    (hs : (raw.get ⟨i, hi⟩).status = 0)
    (hb : PYTHON_TOOL_BASE ≤ (raw.get ⟨i, hi⟩).tool_id)
    (hd : store.length ≤ (raw.get ⟨i, hi⟩).output) :
    ((buildFinalResults rt store raw).get ⟨i, hf⟩).output = PyObj.pyNone ∧
    ((buildFinalResults rt store raw).get ⟨i, hf⟩).status = 0 ∧
    (∀ (j : Nat) (hj : j < raw.length)
        (hg : j < (buildFinalResults rt store raw).length),
        (raw.get ⟨j, hj⟩).status = 0 →
        PYTHON_TOOL_BASE ≤ (raw.get ⟨j, hj⟩).tool_id →
        ∀ (hlt : (raw.get ⟨j, hj⟩).output < store.length),
          store.get ⟨(raw.get ⟨j, hj⟩).output, hlt⟩ = PyObj.pyNone →
          ((buildFinalResults rt store raw).get ⟨j, hg⟩).output =
            PyObj.pyNone) := by
  refine ⟨?_, ?_, ?_⟩
  · rw [buildFinalResults_get rt store raw i hf hi]
    unfold entryToResult
    simp only [hs, if_pos rfl, if_pos hb]
    exact List.getD_eq_default _ _ hd
  · rw [buildFinalResults_get rt store raw i hf hi]
    exact hs
  · intro j hj hg h0 hbj hlt hnone
    rw [buildFinalResults_get rt store raw j hg hj]
    unfold entryToResult
    simp only [h0, if_pos rfl, if_pos hbj]
    rw [List.getD_eq_get _ _ hlt]
    exact hnone

/-- Witness for C10: with an empty output table, a success record for host
tool 1000 pointing at slot 0 resolves to `None`. -/
theorem C10_dangling_slot_is_none_witness :
    ((buildFinalResults initAgentRuntime []
        [{ tool_id := 1000, status := 0, output := 0, elapsed_ns := 0,
           error_code := 0 }]).get ⟨0, by decide⟩).output = PyObj.pyNone :=
  (C10_dangling_slot_is_none initAgentRuntime []
    [{ tool_id := 1000, status := 0, output := 0, elapsed_ns := 0,
       error_code := 0 }] 0 (by decide) (by decide) rfl (by decide)
    (by decide)).1

/-- In-range record packing: `encodeRecords` succeeds on a batch whose
fields all fit and yields the concatenation of the fixed records in input
order. -/
theorem encodeRecords_ok_of_ranges (cs : List (Int × Int))
    (h : ∀ c ∈ cs, 0 ≤ c.1 ∧ c.1 < 65536 ∧ 0 ≤ c.2 ∧
          c.2 < 18446744073709551616) :
    encodeRecords cs =
      .ok (cs.map (fun c => callRecordBytes c.1.toNat c.2.toNat)).join := by
  induction cs with
  | nil => rfl
  | cons c rest ih =>
    have hc := h c (List.mem_cons_self c rest)
    have hrest := ih fun x hx => h x (List.mem_cons_of_mem c hx)
    unfold encodeRecords encodeRecord
    rw [if_pos ⟨hc.1, hc.2.1⟩, if_pos ⟨hc.2.2.1, hc.2.2.2⟩, hrest]
    simp

/-- Out-of-range packing: `encodeRecords` raises `struct.error` when any
record's field does not fit its wire width. -/
theorem encodeRecords_error_of_bad (cs : List (Int × Int))
    (h : ∃ c ∈ cs, ¬(0 ≤ c.1 ∧ c.1 < 65536 ∧ 0 ≤ c.2 ∧
          c.2 < 18446744073709551616)) :
    encodeRecords cs = .error .structError := by
  induction cs with
  | nil => obtain ⟨c, hc, _⟩ := h; cases hc
  | cons c rest ih =>
    obtain ⟨b, hb, hbad⟩ := h
    unfold encodeRecords encodeRecord
    rcases List.mem_cons.mp hb with rfl | hmem
    · by_cases h1 : 0 ≤ b.1 ∧ b.1 < 65536
      · rw [if_pos h1, if_neg (by tauto)]
      · rw [if_neg h1]
    · by_cases h1 : 0 ≤ c.1 ∧ c.1 < 65536
      · rw [if_pos h1]
        by_cases h2 : 0 ≤ c.2 ∧ c.2 < 18446744073709551616
        · rw [if_pos h2, ih ⟨b, hmem, hbad⟩]
        · rw [if_neg h2]
      · rw [if_neg h1]

/-- Each packed call record is 16 bytes, so the full buffer is the 8-byte
header plus 16 bytes per call. -/
theorem encodeRecords_length (cs : List (Int × Int)) (bs : List Nat)
    (h : encodeRecords cs = .ok bs) : bs.length = 16 * cs.length := by
  induction cs generalizing bs with
  | nil =>
    unfold encodeRecords at h
    cases h
    rfl
  | cons c rest ih =>
    unfold encodeRecords at h
    cases henc : encodeRecord c with
    | error e => rw [henc] at h; cases h
    | ok bytes =>
      rw [henc] at h
      cases hrest : encodeRecords rest with
      | error e => rw [hrest] at h; cases h
      | ok more =>
        rw [hrest] at h
        cases h
        have hb : bytes.length = 16 := by
          unfold encodeRecord at henc
          by_cases h1 : 0 ≤ c.1 ∧ c.1 < 65536
          · rw [if_pos h1] at henc
            by_cases h2 : 0 ≤ c.2 ∧ c.2 < 18446744073709551616
            · rw [if_pos h2] at henc
              cases henc
              rfl
            · rw [if_neg h2] at henc; cases henc
          · rw [if_neg h1] at henc; cases henc
        rw [List.length_append, hb, ih more hrest, List.length_cons]
        ring

/-- Claim C9: for batches whose count fits the `<II` header, `encode_calls`
succeeds exactly when every call's `tool_id` fits 16 unsigned bits and
every payload fits 64 unsigned bits, producing the header followed by the
fixed-width records in input order (8 + 16·N bytes); any out-of-range
field makes it raise the packing error (`struct.error`, the encoding
error the spec names `InvalidCallError`) — the latter regardless of the
header bound. -/
theorem C9_encode_calls (cs : List (Int × Int)) :
    (cs.length < 4294967296 →
      (∀ c ∈ cs, 0 ≤ c.1 ∧ c.1 < 65536 ∧ 0 ≤ c.2 ∧
          c.2 < 18446744073709551616) →
      encode_calls cs =
        .ok (pack32 cs.length ++ pack32 0 ++
          (cs.map (fun c => callRecordBytes c.1.toNat c.2.toNat)).join) ∧
      (pack32 cs.length ++ pack32 0 ++
          (cs.map (fun c => callRecordBytes c.1.toNat c.2.toNat)).join).length =
        8 + 16 * cs.length) ∧
    ((∃ c ∈ cs, ¬(0 ≤ c.1 ∧ c.1 < 65536 ∧ 0 ≤ c.2 ∧
          c.2 < 18446744073709551616)) →
      encode_calls cs = .error .structError) := by
  constructor
  · intro hlen hranges
    have hrec := encodeRecords_ok_of_ranges cs hranges
    constructor
    · unfold encode_calls
      rw [if_pos hlen, hrec]
    · have hjoin :
          ((cs.map (fun c => callRecordBytes c.1.toNat c.2.toNat)).join).length =
            16 * cs.length := encodeRecords_length cs _ hrec
      simp only [List.length_append, hjoin, pack32, List.length_cons,
        List.length_nil]
  · intro hbad
    unfold encode_calls
    by_cases hlen : cs.length < 4294967296
    · rw [if_pos hlen, encodeRecords_error_of_bad cs hbad]
    · rw [if_neg hlen]

/-- Witness for C9: a two-call batch in range encodes to the header plus
both records in order; a call whose tool_id needs more than 16 bits makes
encoding raise. -/
theorem C9_encode_calls_witness :
    encode_calls [((0 : Int), (5 : Int)), ((1000 : Int), (0 : Int))] =
      .ok (pack32 2 ++ pack32 0 ++
        (callRecordBytes 0 5 ++ (callRecordBytes 1000 0 ++ []))) ∧
    encode_calls [((70000 : Int), (0 : Int))] = .error .structError :=
  ⟨((C9_encode_calls [((0 : Int), (5 : Int)), ((1000 : Int), (0 : Int))]).1
      (by decide) (by decide)).1,
   (C9_encode_calls [((70000 : Int), (0 : Int))]).2
      ⟨((70000 : Int), (0 : Int)), List.mem_cons_self _ _, by decide⟩⟩

/-- Parsing inverts record packing: the native side reads back exactly the
`(tool_id, payload)` pairs the bridge packed, in order. -/
theorem parse_encodeRecords (cs : List (Int × Int)) :
    ∀ bs : List Nat, encodeRecords cs = .ok bs →
      parseCallRecords cs.length bs =
        some (cs.map fun c => (c.1.toNat, c.2.toNat)) := by
  induction cs with
  | nil =>
    intro bs h
    unfold encodeRecords at h
    cases h
    rfl
  | cons c rest ih =>
    intro bs h
    unfold encodeRecords at h
    cases henc : encodeRecord c with
    | error e => rw [henc] at h; cases h
    | ok bytes =>
      rw [henc] at h
      cases hrest : encodeRecords rest with
      | error e => rw [hrest] at h; cases h
      | ok more =>
        rw [hrest] at h
        cases h
        have hlow : 0 ≤ c.1 ∧ c.1 < 65536 ∧ 0 ≤ c.2 ∧
            c.2 < 18446744073709551616 := by
          unfold encodeRecord at henc
          by_cases h1 : 0 ≤ c.1 ∧ c.1 < 65536
          · rw [if_pos h1] at henc
            by_cases h2 : 0 ≤ c.2 ∧ c.2 < 18446744073709551616
            · exact ⟨h1.1, h1.2, h2.1, h2.2⟩
            · rw [if_neg h2] at henc; cases henc
          · rw [if_neg h1] at henc; cases henc
        have hbytes : bytes = callRecordBytes c.1.toNat c.2.toNat := by
          unfold encodeRecord at henc
          rw [if_pos ⟨hlow.1, hlow.2.1⟩, if_pos ⟨hlow.2.2.1, hlow.2.2.2⟩] at henc
          cases henc
          rfl
        subst hbytes
        have ht : c.1.toNat < 65536 := by omega
        have hp : c.2.toNat < 18446744073709551616 := by omega
        simp only [callRecordBytes, pack16, pack64, List.cons_append,
          List.nil_append, List.append_assoc, List.length_cons]
        rw [parseCallRecords, ih more hrest]
        simp only [List.map_cons, Option.some.injEq, List.cons.injEq,
          Prod.mk.injEq]
        refine ⟨⟨by omega, by omega⟩, trivial⟩

/-- The native side's view of an encoded batch is exactly the submitted
calls: header count and then the packed records, in input order. -/
theorem decode_encode_calls (cs : List (Int × Int)) (bs : List Nat)
    (h : encode_calls cs = .ok bs) :
    decodeCallBatch bs = some (cs.map fun c => (c.1.toNat, c.2.toNat)) := by
  unfold encode_calls at h
  by_cases hlen : cs.length < 4294967296
  · rw [if_pos hlen] at h
    cases hrec : encodeRecords cs with
    | error e => rw [hrec] at h; cases h
    | ok recs =>
      rw [hrec] at h
      cases h
      have hcount : cs.length % 256 + 256 * (cs.length / 256 % 256) +
          65536 * (cs.length / 65536 % 256) +
          16777216 * (cs.length / 16777216 % 256) = cs.length := by omega
      simp only [pack32, List.cons_append, List.nil_append]
      rw [decodeCallBatch]
      rw [hcount]
      exact parse_encodeRecords cs recs hrec
  · rw [if_neg hlen] at h
    cases h


/-- Every dispatch branch echoes the call's `tool_id` into its result
record. -/
theorem nativeStep_tool_id (rt : AgentRuntime) (t p : Nat) :
    ((nativeStep rt t p).2).tool_id = t := by
  unfold nativeStep
  by_cases hb : t < PYTHON_TOOL_BASE
  · rw [if_pos hb]
    by_cases h01 : t = 0 ∨ t = 1
    · rw [if_pos h01]
    · rw [if_neg h01]
  · rw [if_neg hb]

/-- The spec-modelled dispatch core produces one result record per call,
in submission order, each echoing its call's `tool_id`. -/
theorem nativeExecuteCalls_shape (cs : List (Nat × Nat)) :
    ∀ rt : AgentRuntime,
      (nativeExecuteCalls rt cs).2.length = cs.length ∧
      ∀ (i : Nat) (hr : i < (nativeExecuteCalls rt cs).2.length)
        (hi : i < cs.length),
        ((nativeExecuteCalls rt cs).2.get ⟨i, hr⟩).tool_id =
          (cs.get ⟨i, hi⟩).1 := by
  induction cs with
  | nil =>
    intro rt
    exact ⟨rfl, fun i hr hi => absurd hi (Nat.not_lt_zero i)⟩
  | cons c rest ih =>
    intro rt
    obtain ⟨t, p⟩ := c
    obtain ⟨ihlen, ihget⟩ := ih (nativeStep rt t p).1
    have hunf : nativeExecuteCalls rt ((t, p) :: rest) =
        ((nativeExecuteCalls (nativeStep rt t p).1 rest).1,
         (nativeStep rt t p).2 ::
           (nativeExecuteCalls (nativeStep rt t p).1 rest).2) := rfl
    rw [hunf]
    constructor
    · simpa using ihlen
    · intro i hr hi
      cases i with
      | zero => simpa using nativeStep_tool_id rt t p
      | succ j =>
        have hj : j < (nativeExecuteCalls (nativeStep rt t p).1 rest).2.length := by
          simpa using hr
        have hj2 : j < rest.length := by simpa using hi
        simpa using ihget j hj hj2

/-- `_prepare_calls` yields one prepared `(tool_id, payload)` pair per
input call, in order, whose `tool_id` is exactly the resolved id of the
corresponding call. -/
theorem prepareGo_shape (rt : AgentRuntime) (calls : List CallDesc) :
    ∀ (payloads0 table : List PayloadSlot) (prepared : List (Int × Int)),
      prepareGo rt calls payloads0 = .ok (prepared, table) →
      prepared.length = calls.length ∧
      ∀ (i : Nat) (hi : i < calls.length) (hp : i < prepared.length),
        resolve_tool_id rt (calls.get ⟨i, hi⟩) =
          .ok (prepared.get ⟨i, hp⟩).1 := by
  induction calls with
  | nil =>
    intro payloads0 table prepared h
    unfold prepareGo at h
    cases h
    exact ⟨rfl, fun i hi hp => absurd hi (Nat.not_lt_zero i)⟩
  | cons call rest ih =>
    intro payloads0 table prepared h
    unfold prepareGo at h
    cases hres : resolve_tool_id rt call with
    | error e => rw [hres] at h; cases h
    | ok t =>
      rw [hres] at h
      dsimp only at h
      by_cases hbase : (PYTHON_TOOL_BASE : Int) ≤ t
      · rw [if_pos hbase] at h
        cases hnorm : normalize_python_payload ((call.payload).getD .pyNone) with
        | error e => rw [hnorm] at h; cases h
        | ok slot =>
          rw [hnorm] at h
          dsimp only at h
          cases hrec : prepareGo rt rest (payloads0 ++ [slot]) with
          | error e => rw [hrec] at h; cases h
          | ok pr =>
            obtain ⟨prep2, table2⟩ := pr
            rw [hrec] at h
            dsimp only at h
            cases h
            obtain ⟨ihlen, ihget⟩ := ih _ _ _ hrec
            refine ⟨by simpa using ihlen, ?_⟩
            intro i hi hp
            cases i with
            | zero => simpa using hres
            | succ j =>
              have hj : j < rest.length := by simpa using hi
              have hj2 : j < prep2.length := by simpa using hp
              simpa using ihget j hj hj2
      · rw [if_neg hbase] at h
        cases hint : pyToInt (pyOr0 ((call.payload).getD .pyNone)) with
        | error e => rw [hint] at h; cases h
        | ok n =>
          rw [hint] at h
          dsimp only at h
          cases hrec : prepareGo rt rest payloads0 with
          | error e => rw [hrec] at h; cases h
          | ok pr =>
            obtain ⟨prep2, table2⟩ := pr
            rw [hrec] at h
            dsimp only at h
            cases h
            obtain ⟨ihlen, ihget⟩ := ih _ _ _ hrec
            refine ⟨by simpa using ihlen, ?_⟩
            intro i hi hp
            cases i with
            | zero => simpa using hres
            | succ j =>
              have hj : j < rest.length := by simpa using hi
              have hj2 : j < prep2.length := by simpa using hp
              simpa using ihget j hj hj2

/-- Encoding success implies every packed field was in range. -/
theorem encodeRecords_ok_ranges (cs : List (Int × Int)) :
    ∀ bs : List Nat, encodeRecords cs = .ok bs →
      ∀ c ∈ cs, 0 ≤ c.1 ∧ c.1 < 65536 ∧ 0 ≤ c.2 ∧
        c.2 < 18446744073709551616 := by
  induction cs with
  | nil => intro bs _ c hc; cases hc
  | cons c rest ih =>
    intro bs h b hb
    unfold encodeRecords at h
    cases henc : encodeRecord c with
    | error e => rw [henc] at h; cases h
    | ok bytes =>
      rw [henc] at h
      cases hrest : encodeRecords rest with
      | error e => rw [hrest] at h; cases h
      | ok more =>
        rcases List.mem_cons.mp hb with rfl | hmem
        · unfold encodeRecord at henc
          by_cases h1 : 0 ≤ b.1 ∧ b.1 < 65536
          · rw [if_pos h1] at henc
            by_cases h2 : 0 ≤ b.2 ∧ b.2 < 18446744073709551616
            · exact ⟨h1.1, h1.2, h2.1, h2.2⟩
            · rw [if_neg h2] at henc; cases henc
          · rw [if_neg h1] at henc; cases henc
        · exact ih more hrest b hmem

/-- Decoding a non-null buffer copies each record in order. -/
theorem decode_results_records (records : List FfiToolResult) :
    decode_results { isNull := false, records := records } =
      records.map fun e =>
        ({ tool_id := e.tool_id, status := e.status, output := e.output,
           elapsed_ns := e.elapsed_ns,
           error_code := e.error_code } : ToolExecution) := by
  cases records with
  | nil => rfl
  | cons a l => rfl

/-- The head of a filtered list is the first element satisfying the
predicate: it occurs at an index all of whose predecessors fail it. -/
theorem filter_head_first {α : Type} (p : α → Bool) :
    ∀ (l : List α) (x : α) (rest : List α), l.filter p = x :: rest →
      ∃ (i : Nat) (hi : i < l.length), l.get ⟨i, hi⟩ = x ∧ p x = true ∧
        ∀ (j : Nat) (hj : j < l.length), j < i →
          p (l.get ⟨j, hj⟩) = false := by
  intro l
  induction l with
  | nil => intro x rest h; cases h
  | cons a tl ih =>
    intro x rest h
    by_cases hp : p a = true
    · rw [List.filter_cons_of_pos hp] at h
      cases h
      exact ⟨0, Nat.succ_pos _, rfl, hp, fun j hj hlt => absurd hlt (Nat.not_lt_zero j)⟩
    · rw [List.filter_cons_of_neg (by simpa using hp)] at h
      obtain ⟨i, hi, hget, hx, hmin⟩ := ih x rest h
      refine ⟨i + 1, by simpa using hi, by simpa using hget, hx, ?_⟩
      intro j hj hlt
      cases j with
      | zero => simpa using hp
      | succ k =>
        have hk : k < tl.length := by simpa using hj
        simpa using hmin k hk (by omega)

/-- Claim C2: the error-surfacing tail of `execute`. When every decoded
result has status 0 it returns the full final list (one entry per decoded
record) without raising; when any decoded result has nonzero status it
raises a single error carrying the name, tool id and error code of the
first failing entry (every earlier entry having status 0) and returns no
list. The final conjunct ties the tail to `execute` itself: whenever the
pipeline decodes raw results, `execute`'s outcome is exactly this tail
applied to them. -/
theorem C2_error_surfacing (rtN : AgentRuntime) (store : List PyObj)
    (raw : List ToolExecution) :
    ((∀ e ∈ raw, e.status = 0) →
      finishExecute rtN store raw = .ok (buildFinalResults rtN store raw) ∧
      (buildFinalResults rtN store raw).length = raw.length) ∧
    ((∃ e ∈ raw, e.status ≠ 0) →
      ∃ (i : Nat) (hi : i < (buildFinalResults rtN store raw).length),
        finishExecute rtN store raw =
          .error (.toolFailed
            ((buildFinalResults rtN store raw).get ⟨i, hi⟩).name
            ((buildFinalResults rtN store raw).get ⟨i, hi⟩).tool_id
            ((buildFinalResults rtN store raw).get ⟨i, hi⟩).error_code) ∧
        ((buildFinalResults rtN store raw).get ⟨i, hi⟩).status ≠ 0 ∧
        ∀ (j : Nat) (hj : j < (buildFinalResults rtN store raw).length),
          j < i → ((buildFinalResults rtN store raw).get ⟨j, hj⟩).status = 0) ∧
    (∀ (rt : AgentRuntime) (calls : List CallDesc),
      executeRaw rt calls = some raw →
      ∃ (rtN2 : AgentRuntime) (store2 : List PyObj),
        (execute rt calls).1 = finishExecute rtN2 store2 raw) := by
  refine ⟨?_, ?_, ?_⟩
  · intro hz
    have hfil : (buildFinalResults rtN store raw).filter
        (fun r => r.status != 0) = [] := by
      rw [List.filter_eq_nil]
      intro r hr
      obtain ⟨e, he, rfl⟩ := List.mem_map.mp hr
      have := hz e he
      simp [entryToResult, this]
    constructor
    · unfold finishExecute
      dsimp only
      rw [hfil]
    · exact buildFinalResults_length rtN store raw
  · intro hex
    have hne : (buildFinalResults rtN store raw).filter
        (fun r => r.status != 0) ≠ [] := by
      obtain ⟨e, he, hst⟩ := hex
      intro hnil
      rw [List.filter_eq_nil] at hnil
      refine absurd (hnil (entryToResult rtN store e) ?_) (by simpa [entryToResult] using hst)
      exact List.mem_map.mpr ⟨e, he, rfl⟩
    cases hfil : (buildFinalResults rtN store raw).filter
        (fun r => r.status != 0) with
    | nil => exact absurd hfil hne
    | cons first rest2 =>
      obtain ⟨i, hi, hget, hx, hmin⟩ :=
        filter_head_first _ _ first rest2 hfil
      refine ⟨i, hi, ?_, ?_, ?_⟩
      · unfold finishExecute
        dsimp only
        rw [hfil]
        dsimp only
        rw [hget]
      · rw [hget]; simpa using hx
      · intro j hj hlt
        simpa using hmin j hj hlt
  · intro rt calls hraw
    unfold executeRaw at hraw
    cases hsub : executeSubmit rt calls with
    | error e => rw [hsub] at hraw; cases hraw
    | ok pr =>
      obtain ⟨rt1, buffer⟩ := pr
      rw [hsub] at hraw
      dsimp only at hraw
      refine ⟨clearActiveTables rt1, rt1.active_results.getD [], ?_⟩
      unfold execute executeWith
      rw [hsub]
      dsimp only
      cases hraw
      rfl

/-- Witness for C2: a one-call all-success batch returns its list; a batch
whose second record fails surfaces that record's identity; and a concrete
`execute` run is the tail applied to its decoded results. -/
theorem C2_error_surfacing_witness :
    (finishExecute initAgentRuntime []
        [{ tool_id := 0, status := 0, output := 0, elapsed_ns := 0,
           error_code := 0 }] =
      .ok (buildFinalResults initAgentRuntime []
        [{ tool_id := 0, status := 0, output := 0, elapsed_ns := 0,
           error_code := 0 }]) ∧
      (buildFinalResults initAgentRuntime []
        [{ tool_id := 0, status := 0, output := 0, elapsed_ns := 0,
           error_code := 0 }]).length = 1) ∧
    (∃ (i : Nat) (hi : i < (buildFinalResults initAgentRuntime []
        [{ tool_id := 0, status := 0, output := 0, elapsed_ns := 0,
           error_code := 0 },
         { tool_id := 5, status := 1, output := 0, elapsed_ns := 0,
           error_code := -404 }]).length),
      finishExecute initAgentRuntime []
        [{ tool_id := 0, status := 0, output := 0, elapsed_ns := 0,
           error_code := 0 },
         { tool_id := 5, status := 1, output := 0, elapsed_ns := 0,
           error_code := -404 }] =
        .error (.toolFailed
          ((buildFinalResults initAgentRuntime [] _).get ⟨i, hi⟩).name
          ((buildFinalResults initAgentRuntime [] _).get ⟨i, hi⟩).tool_id
          ((buildFinalResults initAgentRuntime [] _).get ⟨i, hi⟩).error_code) ∧
      ((buildFinalResults initAgentRuntime [] _).get ⟨i, hi⟩).status ≠ 0 ∧
      ∀ (j : Nat) (hj : j < (buildFinalResults initAgentRuntime []
          [{ tool_id := 0, status := 0, output := 0, elapsed_ns := 0,
             error_code := 0 },
           { tool_id := 5, status := 1, output := 0, elapsed_ns := 0,
             error_code := -404 }]).length),
        j < i → ((buildFinalResults initAgentRuntime [] _).get ⟨j, hj⟩).status = 0) ∧
    (∃ (rtN2 : AgentRuntime) (store2 : List PyObj),
      (execute initAgentRuntime
        [{ tool_id := some 0, name := none, payload := some (.int 1) }]).1 =
        finishExecute rtN2 store2
          [{ tool_id := 0, status := 0, output := 0, elapsed_ns := 0,
             error_code := 0 }]) :=
  ⟨(C2_error_surfacing initAgentRuntime [] _).1
      (by intro e he; simp at he; rw [he]),
   (C2_error_surfacing initAgentRuntime [] _).2.1
      ⟨{ tool_id := 5, status := 1, output := 0, elapsed_ns := 0,
         error_code := -404 }, by simp, by decide⟩,
   (C2_error_surfacing initAgentRuntime [] _).2.2 initAgentRuntime
      [{ tool_id := some 0, name := none, payload := some (.int 1) }] (by decide)⟩

/-- Claim C8: buffer lifecycle. For any decoder — including a
fault-injected one that raises — once `execute` submits the batch, the FFI
trace contains the submit followed by exactly one free of the returned
buffer, on both the normal and the raising exit path; when the pipeline
fails before submission there is no buffer and no free. -/
theorem C8_buffer_freed_once
    (decoder : ResultBuffer → Except ExecError (List ToolExecution))
    (rt : AgentRuntime) (calls : List CallDesc) :
    ((∃ pr, executeSubmit rt calls = .ok pr) →
      (executeWith decoder rt calls).2.2 =
        [FfiEvent.submitEv, FfiEvent.freeEv]) ∧
    ((∃ e, executeSubmit rt calls = .error e) →
      (executeWith decoder rt calls).2.2 = []) := by
  constructor
  · rintro ⟨pr, hsub⟩
    obtain ⟨rt1, buffer⟩ := pr
    unfold executeWith
    rw [hsub]
    dsimp only
    cases decoder buffer <;> rfl
  · rintro ⟨e, hsub⟩
    unfold executeWith
    rw [hsub]

/-- A decoder that always raises, standing in for the spec's
fault-injected decoder. -/
def faultDecoder : ResultBuffer → Except ExecError (List ToolExecution) :=
  fun _ => .error .decodeFault

/-- Witness for C8: a concrete submitted batch is freed exactly once both
under the real decoder and under a decoder that raises; a batch that fails
name resolution never submits and never frees. -/
theorem C8_buffer_freed_once_witness :
    (executeWith faultDecoder initAgentRuntime
      [{ tool_id := some 0, name := none, payload := some (.int 1) }]).2.2 =
      [FfiEvent.submitEv, FfiEvent.freeEv] ∧
    (execute initAgentRuntime
      [{ tool_id := some 0, name := none, payload := some (.int 1) }]).2.2 =
      [FfiEvent.submitEv, FfiEvent.freeEv] ∧
    (execute initAgentRuntime
      [{ tool_id := none, name := some "nope", payload := none }]).2.2 = [] :=
  ⟨(C8_buffer_freed_once faultDecoder initAgentRuntime
      [{ tool_id := some 0, name := none, payload := some (.int 1) }]).1
      ⟨_, rfl⟩,
   (C8_buffer_freed_once (fun b => .ok (decode_results b)) initAgentRuntime
      [{ tool_id := some 0, name := none, payload := some (.int 1) }]).1
      ⟨_, rfl⟩,
   (C8_buffer_freed_once (fun b => .ok (decode_results b)) initAgentRuntime
      [{ tool_id := none, name := some "nope", payload := none }]).2
      ⟨_, rfl⟩⟩

/-- `list()` failures during payload normalization are `TypeError`s. -/
theorem asList_error (x : PyObj) (e : ExecError) (h : asList x = .error e) :
    e = .typeError := by
  cases x <;> simp [asList] at h <;> exact h.symm

/-- `dict()` failures during payload normalization are `TypeError`s. -/
theorem asDict_error (x : PyObj) (e : ExecError) (h : asDict x = .error e) :
    e = .typeError := by
  cases x <;> simp [asDict] at h <;> exact h.symm

/-- `int()` failures on native payloads are `TypeError`s. -/
theorem pyToInt_error (x : PyObj) (e : ExecError) (h : pyToInt x = .error e) :
    e = .typeError := by
  cases x <;> simp [pyToInt] at h <;> exact h.symm

/-- Payload normalization raises only `TypeError`. -/
theorem normalize_error_kind (p : PyObj) (e : ExecError)
    (h : normalize_python_payload p = .error e) : e = .typeError := by
  cases p with
  | dict entries =>
    unfold normalize_python_payload at h
    dsimp only at h
    by_cases hk : ((alookup entries "args").isSome ||
        (alookup entries "kwargs").isSome) = true
    · rw [if_pos hk] at h
      cases hl : asList ((alookup entries "args").getD (.list [])) with
      | error e2 =>
        rw [hl] at h
        injection h with h2
        exact h2 ▸ asList_error _ e2 hl
      | ok args =>
        rw [hl] at h
        dsimp only at h
        cases hd : asDict ((alookup entries "kwargs").getD (.dict [])) with
        | error e2 =>
          rw [hd] at h
          injection h with h2
          exact h2 ▸ asDict_error _ e2 hd
        | ok kwargs => rw [hd] at h; cases h
    · rw [if_neg hk] at h; cases h
  | pyNone => cases h
  | int n => cases h
  | str s => cases h
  | list items => cases h
  | exc msg => cases h

/-- Tool-id resolution raises only `ValueError` or the unknown-tool
`KeyError`. -/
theorem resolve_error_kind (rt : AgentRuntime) (call : CallDesc)
    (e : ExecError) (h : resolve_tool_id rt call = .error e) :
    e = .valueError ∨ ∃ n, e = .unknownTool n := by
  unfold resolve_tool_id at h
  cases ht : call.tool_id with
  | some t => rw [ht] at h; cases h
  | none =>
    rw [ht] at h
    dsimp only at h
    cases hn : call.name with
    | none =>
      rw [hn] at h
      dsimp only at h
      injection h with h2
      exact Or.inl h2.symm
    | some n =>
      rw [hn] at h
      dsimp only at h
      cases hl : alookup rt.tool_ids n with
      | none =>
        rw [hl] at h
        injection h with h2
        exact Or.inr ⟨n, h2.symm⟩
      | some t => rw [hl] at h; cases h

/-- Call preparation raises only resolution or normalization errors. -/
theorem prepareGo_error_kind (rt : AgentRuntime) (calls : List CallDesc) :
    ∀ (payloads0 : List PayloadSlot) (e : ExecError),
      prepareGo rt calls payloads0 = .error e →
      e = .valueError ∨ (∃ n, e = .unknownTool n) ∨ e = .typeError := by
  induction calls with
  | nil => intro payloads0 e h; cases h
  | cons call rest ih =>
    intro payloads0 e h
    unfold prepareGo at h
    cases hres : resolve_tool_id rt call with
    | error e2 =>
      rw [hres] at h
      injection h with h2
      subst h2
      rcases resolve_error_kind rt call e2 hres with h3 | h3
      · exact Or.inl h3
      · exact Or.inr (Or.inl h3)
    | ok t =>
      rw [hres] at h
      dsimp only at h
      by_cases hbase : (PYTHON_TOOL_BASE : Int) ≤ t
      · rw [if_pos hbase] at h
        cases hnorm : normalize_python_payload
            ((call.payload).getD .pyNone) with
        | error e2 =>
          rw [hnorm] at h
          injection h with h2
          subst h2
          exact Or.inr (Or.inr (normalize_error_kind _ e2 hnorm))
        | ok slot =>
          rw [hnorm] at h
          dsimp only at h
          cases hrec : prepareGo rt rest (payloads0 ++ [slot]) with
          | error e2 =>
            rw [hrec] at h
            injection h with h2
            exact h2 ▸ ih _ e2 hrec
          | ok pr => obtain ⟨a, b⟩ := pr; rw [hrec] at h; cases h
      · rw [if_neg hbase] at h
        cases hint : pyToInt (pyOr0 ((call.payload).getD .pyNone)) with
        | error e2 =>
          rw [hint] at h
          injection h with h2
          subst h2
          exact Or.inr (Or.inr (pyToInt_error _ e2 hint))
        | ok n =>
          rw [hint] at h
          dsimp only at h
          cases hrec : prepareGo rt rest payloads0 with
          | error e2 =>
            rw [hrec] at h
            injection h with h2
            exact h2 ▸ ih _ e2 hrec
          | ok pr => obtain ⟨a, b⟩ := pr; rw [hrec] at h; cases h

/-- Encoding raises only `struct.error`. -/
theorem encodeRecords_error_kind (cs : List (Int × Int)) :
    ∀ e : ExecError, encodeRecords cs = .error e → e = .structError := by
  induction cs with
  | nil => intro e h; cases h
  | cons c rest ih =>
    intro e h
    unfold encodeRecords encodeRecord at h
    by_cases h1 : 0 ≤ c.1 ∧ c.1 < 65536
    · rw [if_pos h1] at h
      by_cases h2 : 0 ≤ c.2 ∧ c.2 < 18446744073709551616
      · rw [if_pos h2] at h
        dsimp only at h
        cases hrest : encodeRecords rest with
        | error e2 =>
          rw [hrest] at h
          injection h with h3
          exact h3 ▸ ih e2 hrest
        | ok more => rw [hrest] at h; cases h
      · rw [if_neg h2] at h
        dsimp only at h
        injection h with h3
        exact h3.symm
    · rw [if_neg h1] at h
      dsimp only at h
      injection h with h3
      exact h3.symm

/-- The submission half of `execute` never raises the aggregate
tool-failure error: its failures are resolution, normalization or packing
errors. -/
theorem executeSubmit_error_kind (rt : AgentRuntime) (calls : List CallDesc)
    (e : ExecError) (h : executeSubmit rt calls = .error e) :
    e = .valueError ∨ (∃ n, e = .unknownTool n) ∨ e = .typeError ∨
      e = .structError := by
  unfold executeSubmit at h
  cases hprep : prepare_calls rt calls with
  | error e2 =>
    rw [hprep] at h
    injection h with h2
    subst h2
    rcases prepareGo_error_kind rt calls [] e2 hprep with h3 | h3 | h3
    · exact Or.inl h3
    · exact Or.inr (Or.inl h3)
    · exact Or.inr (Or.inr (Or.inl h3))
  | ok pr =>
    obtain ⟨prepared, payloads⟩ := pr
    rw [hprep] at h
    dsimp only at h
    cases henc : encode_calls prepared with
    | error e2 =>
      rw [henc] at h
      injection h with h2
      subst h2
      unfold encode_calls at henc
      by_cases hlen : prepared.length < 4294967296
      · rw [if_pos hlen] at henc
        cases hrec : encodeRecords prepared with
        | error e3 =>
          rw [hrec] at henc
          injection henc with h3
          exact Or.inr (Or.inr (Or.inr (h3 ▸ encodeRecords_error_kind prepared e3 hrec)))
        | ok recs => rw [hrec] at henc; cases henc
      · rw [if_neg hlen] at henc
        injection henc with h3
        exact Or.inr (Or.inr (Or.inr h3.symm))
    | ok bytes => rw [henc] at h; cases h

/-- The aggregate raise can only come from a decoded result with nonzero
status. -/
theorem finishExecute_error_mem (rtN : AgentRuntime) (store : List PyObj)
    (raw : List ToolExecution) (err : ExecError)
    (h : finishExecute rtN store raw = .error err) :
    ∃ e ∈ raw, e.status ≠ 0 := by
  unfold finishExecute at h
  dsimp only at h
  cases hfil : (buildFinalResults rtN store raw).filter
      (fun r => r.status != 0) with
  | nil => rw [hfil] at h; cases h
  | cons first rest2 =>
    have hmem : first ∈ (buildFinalResults rtN store raw).filter
        (fun r => r.status != 0) := by rw [hfil]; exact List.mem_cons_self _ _
    obtain ⟨hmem2, hst⟩ := List.mem_filter.mp hmem
    obtain ⟨e2, he2, hent⟩ := List.mem_map.mp hmem2
    refine ⟨e2, he2, ?_⟩
    have : first.status = e2.status := by rw [← hent]; rfl
    simpa [← this] using hst

/-- A runtime with one registered host tool, `boom`, that always raises. -/
def rtBoom : AgentRuntime := (tool initAgentRuntime "boom" boomImpl).1

/-- The mixed batch of the spec's failure-isolation scenario: one raising
host call followed by a successful native call. -/
def callsBoom : List CallDesc :=
  [{ tool_id := none, name := some "boom", payload := none },
   { tool_id := some 0, name := none, payload := some (.int 1) }]

/-- Claim C3 counterexample: on a batch with one failing host call and one
successful native sibling, `execute` raises the aggregate error, and the
post-call runtime state equals the pre-call state exactly — both active
tables are cleared to `None` before the raise and no field of the runtime
retains the batch's results, so no accessor on the runtime can expose the
successful sibling's result after the raise. -/
theorem C3_counterexample :
    (execute rtBoom callsBoom).1 =
      .error (.toolFailed "boom" 1000 (-500)) ∧
    (execute rtBoom callsBoom).2.1 = rtBoom ∧
    (execute rtBoom callsBoom).2.1.active_results = none ∧
    (execute rtBoom callsBoom).2.1.active_payloads = none :=
  ⟨rfl, rfl, rfl, rfl⟩

/-- Claim C3 as amended: when `execute` raises the aggregate tool-failure
error, the whole batch had been executed and decoded (a full raw result
list exists, with some nonzero-status entry), but `execute` clears both
active tables to `None` before raising — the runtime retains no reference
to the batch's results, and the source defines no accessor for them, so
the successful sibling results are not observable by the caller after the
raise. -/
theorem C3_amended_no_side_channel (rt : AgentRuntime)
    (calls : List CallDesc) (name : String) (tid : Nat) (code : Int)
    (h : (execute rt calls).1 = .error (.toolFailed name tid code)) :
    (execute rt calls).2.1.active_payloads = none ∧
    (execute rt calls).2.1.active_results = none ∧
    ∃ raw, executeRaw rt calls = some raw ∧ ∃ e ∈ raw, e.status ≠ 0 := by
  cases hsub : executeSubmit rt calls with
  | error e =>
    exfalso
    unfold execute executeWith at h
    rw [hsub] at h
    dsimp only at h
    injection h with h2
    rcases executeSubmit_error_kind rt calls e hsub with h3 | ⟨n, h3⟩ | h3 | h3 <;>
      simp [h3] at h2
  | ok pr =>
    obtain ⟨rt1, buffer⟩ := pr
    unfold execute executeWith at h ⊢
    rw [hsub] at h ⊢
    dsimp only at h ⊢
    refine ⟨rfl, rfl, decode_results buffer, ?_, ?_⟩
    · unfold executeRaw
      rw [hsub]
    · exact finishExecute_error_mem _ _ _ _ h

/-- Witness for the amended C3 at the concrete failing batch: the raise
happened, both tables are cleared, and the decoded raw list (which
includes the successful sibling) exists with a failing entry. -/
theorem C3_amended_no_side_channel_witness :
    (execute rtBoom callsBoom).2.1.active_payloads = none ∧
    (execute rtBoom callsBoom).2.1.active_results = none ∧
    ∃ raw, executeRaw rtBoom callsBoom = some raw ∧ ∃ e ∈ raw, e.status ≠ 0 :=
  C3_amended_no_side_channel rtBoom callsBoom "boom" 1000 (-500) rfl

/-- When every decoded result succeeded, the error-surfacing tail returns
the full final list. -/
theorem finishExecute_all_zero (rtN : AgentRuntime) (store : List PyObj)
    (raw : List ToolExecution) (hz : ∀ e ∈ raw, e.status = 0) :
    finishExecute rtN store raw = .ok (buildFinalResults rtN store raw) := by
  have hfil : (buildFinalResults rtN store raw).filter
      (fun r => r.status != 0) = [] := by
    rw [List.filter_eq_nil]
    intro r hr
    obtain ⟨e, he, rfl⟩ := List.mem_map.mp hr
    have := hz e he
    simp [entryToResult, this]
  unfold finishExecute
  dsimp only
  rw [hfil]

/-- Indexing through `List.map`. -/
theorem get_map_eq {α β : Type} (f : α → β) (l : List α) (i : Nat)
    (h1 : i < (l.map f).length) (h2 : i < l.length) :
    (l.map f).get ⟨i, h1⟩ = f (l.get ⟨i, h2⟩) := by
  simp [List.get_eq_getElem, List.getElem_map]

/-- The resolved result record keeps its raw record's `tool_id`. -/
theorem entryToResult_tool_id (rt : AgentRuntime) (store : List PyObj)
    (e : ToolExecution) : (entryToResult rt store e).tool_id = e.tool_id := rfl

/-- Claim C1: round-trip shape of `execute`. Whenever the pipeline decodes
raw results that all have status 0, `execute` returns (without raising)
exactly one result record per input call, in input order, and each
returned record's `tool_id` is the id `_resolve_tool_id` resolved for the
corresponding input call. -/
theorem C1_roundtrip_order (rt : AgentRuntime) (calls : List CallDesc)
    (raw : List ToolExecution) (hraw : executeRaw rt calls = some raw)
    (hz : ∀ e ∈ raw, e.status = 0) :
    ∃ (finals : List ExecutionResult) (rtF : AgentRuntime),
      execute rt calls =
        (.ok finals, rtF, [FfiEvent.submitEv, FfiEvent.freeEv]) ∧
      finals.length = calls.length ∧
      ∀ (i : Nat) (hi : i < calls.length) (hf : i < finals.length),
        ∃ t : Int, resolve_tool_id rt (calls.get ⟨i, hi⟩) = .ok t ∧ 0 ≤ t ∧
          (((finals.get ⟨i, hf⟩).tool_id : Nat) : Int) = t := by
  unfold executeRaw at hraw
  cases hsub : executeSubmit rt calls with
  | error e => rw [hsub] at hraw; cases hraw
  | ok pr =>
    obtain ⟨rt1, buffer⟩ := pr
    rw [hsub] at hraw
    dsimp only at hraw
    injection hraw with hdec
    have hsub2 := hsub
    unfold executeSubmit at hsub2
    cases hprep : prepare_calls rt calls with
    | error e => rw [hprep] at hsub2; cases hsub2
    | ok prpl =>
      obtain ⟨prepared, payloads⟩ := prpl
      rw [hprep] at hsub2
      dsimp only at hsub2
      cases henc : encode_calls prepared with
      | error e => rw [henc] at hsub2; cases hsub2
      | ok bytes =>
        rw [henc] at hsub2
        dsimp only at hsub2
        injection hsub2 with haex
        have hdecb := decode_encode_calls prepared bytes henc
        unfold aether_execute at haex
        rw [hdecb] at haex
        dsimp only at haex
        injection haex with hrt1 hbuf
        obtain ⟨hplen, hpget⟩ := prepareGo_shape rt calls [] payloads prepared hprep
        obtain ⟨hnlen, hnget⟩ := nativeExecuteCalls_shape
          (prepared.map fun c => (c.1.toNat, c.2.toNat))
          (setActiveTables rt payloads)
        have hraweq : raw =
            (nativeExecuteCalls (setActiveTables rt payloads)
              (prepared.map fun c => (c.1.toNat, c.2.toNat))).2.map (fun e =>
                ({ tool_id := e.tool_id, status := e.status,
                   output := e.output, elapsed_ns := e.elapsed_ns,
                   error_code := e.error_code } : ToolExecution)) := by
          rw [← hdec, ← hbuf, decode_results_records]
        have hranges : ∀ c ∈ prepared, 0 ≤ c.1 ∧ c.1 < 65536 ∧ 0 ≤ c.2 ∧
            c.2 < 18446744073709551616 := by
          unfold encode_calls at henc
          by_cases hlen : prepared.length < 4294967296
          · rw [if_pos hlen] at henc
            cases hrec : encodeRecords prepared with
            | error e => rw [hrec] at henc; cases henc
            | ok recs => exact encodeRecords_ok_ranges prepared recs hrec
          · rw [if_neg hlen] at henc; cases henc
        subst hraweq
        have hrawlen : ((nativeExecuteCalls (setActiveTables rt payloads)
            (prepared.map fun c => (c.1.toNat, c.2.toNat))).2).length =
            calls.length := by
          rw [hnlen, List.length_map, hplen]
        refine ⟨buildFinalResults (clearActiveTables rt1)
            (rt1.active_results.getD [])
            ((nativeExecuteCalls (setActiveTables rt payloads)
              (prepared.map fun c => (c.1.toNat, c.2.toNat))).2.map (fun e =>
                ({ tool_id := e.tool_id, status := e.status,
                   output := e.output, elapsed_ns := e.elapsed_ns,
                   error_code := e.error_code } : ToolExecution))),
          clearActiveTables rt1, ?_, ?_, ?_⟩
        · unfold execute executeWith
          rw [hsub]
          dsimp only
          rw [hdec, finishExecute_all_zero _ _ _ hz]
        · rw [buildFinalResults_length, List.length_map, hrawlen]
        · intro i hi hf
          have hn2 : i < ((nativeExecuteCalls (setActiveTables rt payloads)
              (prepared.map fun c => (c.1.toNat, c.2.toNat))).2).length := by
            rw [hrawlen]; exact hi
          have hm2 : i < ((nativeExecuteCalls (setActiveTables rt payloads)
              (prepared.map fun c => (c.1.toNat, c.2.toNat))).2.map (fun e =>
                ({ tool_id := e.tool_id, status := e.status,
                   output := e.output, elapsed_ns := e.elapsed_ns,
                   error_code := e.error_code } : ToolExecution))).length := by
            rw [List.length_map]; exact hn2
          have hp : i < prepared.length := by rw [hplen]; exact hi
          have hpm : i < (prepared.map fun c => (c.1.toNat, c.2.toNat)).length := by
            rw [List.length_map]; exact hp
          refine ⟨(prepared.get ⟨i, hp⟩).1, hpget i hi hp, ?_, ?_⟩
          · exact (hranges _ (List.get_mem prepared i hp)).1
          · rw [buildFinalResults_get _ _ _ i hf hm2, entryToResult_tool_id,
              get_map_eq _ _ i hm2 hn2]
            dsimp only
            rw [hnget i hn2 hpm, get_map_eq _ _ i hpm hp]
            dsimp only
            exact Int.toNat_of_nonneg (hranges _ (List.get_mem prepared i hp)).1

/-- A one-call native batch: `sleep_ms` (tool id 0) with payload 5. -/
def callsSleep : List CallDesc :=
  [{ tool_id := some 0, name := none, payload := some (.int 5) }]

/-- Witness for C1: a one-call native batch (`sleep_ms`, payload 5) whose
decoded result has status 0 round-trips with matching length and tool id. -/
theorem C1_roundtrip_order_witness :
    ∃ (finals : List ExecutionResult) (rtF : AgentRuntime),
      execute initAgentRuntime callsSleep =
        (.ok finals, rtF, [FfiEvent.submitEv, FfiEvent.freeEv]) ∧
      finals.length = callsSleep.length ∧
      ∀ (i : Nat) (hi : i < callsSleep.length) (hf : i < finals.length),
        ∃ t : Int,
          resolve_tool_id initAgentRuntime (callsSleep.get ⟨i, hi⟩) = .ok t ∧
          0 ≤ t ∧ (((finals.get ⟨i, hf⟩).tool_id : Nat) : Int) = t :=
  C1_roundtrip_order initAgentRuntime callsSleep
    [{ tool_id := 0, status := 0, output := 0, elapsed_ns := 0,
       error_code := 0 }] (by decide) (by decide)

/-- Witness for C6: two registrations get ids 1000 and 1001; id 1001 is in
the host range and distinct from the native ids; after re-registering
`dup`, the old id still maps to the first implementation while the name
maps to the new id. -/
theorem C6_registration_counter_witness :
    (registerAll initAgentRuntime [("a", echoImpl), ("b", boomImpl)]).2 =
      (List.range 2).map (fun i => PYTHON_TOOL_BASE + i) ∧
    (PYTHON_TOOL_BASE ≤ 1001 ∧ 1001 ≠ 0 ∧ 1001 ≠ 1) ∧
    alookup (tool (tool initAgentRuntime "dup" echoImpl).1 "dup"
        boomImpl).1.python_tools (tool initAgentRuntime "dup" echoImpl).2 =
      some echoImpl ∧
    alookup (tool (tool initAgentRuntime "dup" echoImpl).1 "dup"
        boomImpl).1.tool_ids "dup" =
      some (tool (tool initAgentRuntime "dup" echoImpl).1 "dup" boomImpl).2 :=
  ⟨(C6_registration_counter.1 [("a", echoImpl), ("b", boomImpl)]).1,
   (C6_registration_counter.1 [("a", echoImpl), ("b", boomImpl)]).2.2 1001
     (by decide),
   (C6_registration_counter.2 initAgentRuntime "dup" echoImpl boomImpl).2.2.1,
   (C6_registration_counter.2 initAgentRuntime "dup" echoImpl boomImpl).2.1⟩
